import Mathlib

/-!
Verification development for the `deep-sql-copilot` repository.

The workflow engine (a langgraph `StateGraph` over `DeepState`, built in
`src/sql_copilot.py`) is shallowly embedded below: each node of the graph is a
Lean function from state to state (the clarification node may instead request
a suspension), the collaborator calls (LLM replies, SQL execution, schema and
column lookups) are oracle parameters, and the dispatch loop of the engine is
an executable interpreter over the fixed node/edge topology of the source.

Python strings are modelled as Lean `String`s (lists of characters); the
string helpers used by the nodes (`strip`, `lower`, `upper`, `replace`,
`split(..)[-1]`, containment, `startswith`) are defined below with Python's
semantics on the ASCII inputs the nodes handle.
-/

/-- Python `str.isspace` characters as used by `str.strip()` (ASCII range:
space, tab, newline, vertical tab, form feed, carriage return). -/
def isPyWs (c : Char) : Bool :=
  c = ' ' || c = '\t' || c = '\n' || c = Char.ofNat 11 || c = Char.ofNat 12 || c = '\r'

/-- Python `str.strip()` on a character list: drop whitespace at both ends. -/
def pyStripL (l : List Char) : List Char :=
  ((l.dropWhile isPyWs).reverse.dropWhile isPyWs).reverse

/-- Python `str.strip()`. -/
def pyStrip (s : String) : String := ⟨pyStripL s.data⟩

/-- Python `str.lower()` (ASCII letters; other characters unchanged). -/
def pyLower (s : String) : String := ⟨s.data.map Char.toLower⟩

/-- Python `str.upper()` (ASCII letters; other characters unchanged). -/
def pyUpper (s : String) : String := ⟨s.data.map Char.toUpper⟩

/-- Does the list start with the given pattern? -/
def startsWithL : List Char → List Char → Bool
  | _, [] => true
  | [], _ :: _ => false
  | a :: as, b :: bs => a = b && startsWithL as bs

/-- Python `pat in hay` substring containment on character lists. -/
def containsSub : List Char → List Char → Bool
  | [], pat => pat.isEmpty
  | c :: t, pat => startsWithL (c :: t) pat || containsSub t pat

/-- Python `pat in hay` on strings. -/
def strContains (hay pat : String) : Bool := containsSub hay.data pat.data

/-- Python `hay.startswith(pat)`. -/
def startsWithStr (hay pat : String) : Bool := startsWithL hay.data pat.data

/-- Suffix of `hay` starting at the first occurrence of `pat`
(Python `hay[hay.index(pat):]`; `hay` unchanged if `pat` is absent). -/
def dropUntilSub : List Char → List Char → List Char
  | [], _ => []
  | c :: t, pat => if startsWithL (c :: t) pat then c :: t else dropUntilSub t pat

/-- Python `hay[hay.index(pat):]` on strings. -/
def dropUntilStr (hay pat : String) : String := ⟨dropUntilSub hay.data pat.data⟩

/-- Fuel-indexed worker for `replaceSub`; the fuel is the length of the
haystack, which bounds the number of replacement steps. -/
def replaceAux : Nat → List Char → List Char → List Char → List Char
  | 0, hay, _, _ => hay
  | n + 1, hay, pat, rep =>
    match hay with
    | [] => []
    | c :: t =>
      if pat ≠ [] ∧ startsWithL (c :: t) pat then
        rep ++ replaceAux n (t.drop (pat.length - 1)) pat rep
      else
        c :: replaceAux n t pat rep

/-- Python `hay.replace(pat, rep)`: all leftmost non-overlapping occurrences. -/
def replaceSub (hay pat rep : List Char) : List Char :=
  replaceAux hay.length hay pat rep

/-- Python `hay.replace(pat, rep)` on strings. -/
def replaceStr (hay pat rep : String) : String := ⟨replaceSub hay.data pat.data rep.data⟩

/-- Fuel-indexed worker for `afterLast`. Each step jumps past one occurrence
of the pattern, so the length of the haystack is enough fuel. -/
def afterLastAux : Nat → List Char → List Char → List Char
  | 0, hay, _ => hay
  | n + 1, hay, pat =>
    if pat ≠ [] ∧ containsSub hay pat then
      afterLastAux n ((dropUntilSub hay pat).drop pat.length) pat
    else hay

/-- Python `hay.split(pat)[-1]`: the text after the last occurrence of `pat`
(the whole string when `pat` does not occur). -/
def afterLast (hay pat : String) : String :=
  ⟨afterLastAux hay.data.length hay.data pat.data⟩

/-! ## Data model (`src/node/deep_state.py`) -/

/-- `IntentType` from `deep_state.py`: the classified intent of the query. -/
inductive IntentType
  | query
  | analyze
  | other
deriving DecidableEq, Repr

/-- `QueryMessage` from `deep_state.py`: one transcript entry. -/
structure QueryMessage where
  role : String
  content : String
deriving DecidableEq, Repr

/-- `DeepState` from `deep_state.py`: the workflow state threaded through every
node. `intent_ambiguous` is a Python `dict` preserving insertion order, so it
is modelled as an ordered association list from topic to optional resolved
value (`none` = unresolved); Python `dict` keys are unique, which appears as a
`Nodup` hypothesis where a proof needs it. The unused observability fields
`execution_time` and `error_message` (never read or written by any node) are
omitted. -/
structure DeepState where
  user_input : String
  session_id : String
  database : String
  actual_query : String := ""
  messages : List QueryMessage := []
  intent_type : IntentType := .other
  intent_ambiguous : List (String × Option String) := []
  tables : List String := []
  table_schema : String := ""
  schema_context : String := ""
  final_sql : Option String := none
  query_data : String := ""
  answer : String := ""
  cnt : Nat := 0
deriving DecidableEq, Repr

/-- The exception taxonomy of `src/utils/exceptions.py`. -/
inductive SQLCopilotError
  | configurationError (msg : String)
  | databaseConnectionError (msg : String)
  | databaseQueryError (msg : String)
  | llmServiceError (msg : String)
  | vectorSearchError (msg : String)
  | workflowExecutionError (msg : String)
  | invalidQueryError (msg : String)
deriving DecidableEq, Repr

/-! ## Intent classification node (`src/node/query_intent.py`) -/

namespace QueryIntentNode

/-- `QueryIntentNode._extract_response_text`: take the text after a trailing
`</think>` block, if any, and strip it. -/
def extract_response_text (text : String) : String :=
  let t := if strContains text "</think>" then pyStrip (afterLast text "</think>") else text
  pyStrip t

/-- The module-level `intent_map` lookup with default `"其他"`, as used for the
transcript entry of the routing decision. -/
def intentMapGet (t : String) : String :=
  if t = "query" then "问数"
  else if t = "analyze" then "分析"
  else if t = "other" then "其他"
  else "其他"

/-- `QueryIntentNode._parse_intent_result`: exact (lowercased, stripped) label
match first; then a partial match for replies shorter than 20 characters; any
other reply is `other` with the reply text as the answer. -/
def parse_intent_result (result_text : String) : IntentType × Option String :=
  let low := pyStrip (pyLower result_text)
  if low = "query" then (.query, none)
  else if low = "analyze" then (.analyze, none)
  else if strContains low "query" ∧ low.data.length < 20 then (.query, none)
  else if strContains low "analyze" ∧ low.data.length < 20 then (.analyze, none)
  else (.other, some result_text)

/-- `QueryIntentNode.parse_intent`: classify the user input (the raw LLM reply
is the oracle argument `reply`), record the routing decision in the
transcript, set `intent_type`, and, for an `other` classification with a
non-empty freeform reply, set `answer` to that reply. -/
def parse_intent (reply : String) (s : DeepState) : DeepState :=
  let result_text := extract_response_text reply
  let s := { s with messages := s.messages ++ [QueryMessage.mk "路由" (intentMapGet result_text)] }
  let p := parse_intent_result result_text
  let s := { s with intent_type := p.1 }
  if p.1 = .other ∧ p.2.getD "" ≠ "" then { s with answer := p.2.getD "" } else s

end QueryIntentNode

/-! ## Clarification node (`src/node/query_analyze.py`) -/

/-- Python `dict` assignment `amb[k] = v` on the ordered association list:
update the first (only) entry with key `k` in place, or append a new entry at
the end. -/
def assocSet (amb : List (String × Option String)) (k : String) (v : Option String) :
    List (String × Option String) :=
  match amb with
  | [] => [(k, v)]
  | (k', v') :: t => if k' = k then (k, v) :: t else (k', v') :: assocSet t k v

/-- The keys of the ambiguity mapping, in insertion order. -/
def ambKeys (amb : List (String × Option String)) : List String := amb.map Prod.fst

/-- `get_user_question` from `query_analyze.py`: the unresolved ambiguous
topics (entries whose value is `None`), in insertion order. -/
def get_user_question (s : DeepState) : List String :=
  if s.intent_ambiguous.isEmpty then []
  else (s.intent_ambiguous.filter (fun p => p.2.isNone)).map Prod.fst

/-- The structured LLM output `QueryIntent` of `query_analyze.py`. -/
structure AnalyzeRes where
  thought : String
  intent_ambiguous : List String
  cannot_answer : String
  actual_query : String
deriving DecidableEq, Repr

namespace QueryAnalyzeNode

/-- The `for question in question_list: updated = interrupt(...)` loop of
`QueryAnalyzeNode.analyze_query` under langgraph replay semantics: each
`interrupt` call consumes the next accumulated resume value; when the values
run out the node suspends, raising the current topic as the clarification
prompt (the `content` of the interrupt payload). `.error q` is that
suspension; `.ok amb` is the fully-resolved mapping. -/
def resolveLoop : List String → List String → List (String × Option String) →
    Except String (List (String × Option String))
  | [], _, amb => .ok amb
  | q :: _, [], _ => .error q
  | q :: qs, v :: vs, amb => resolveLoop qs vs (assocSet amb q (some v))

/-- The trailing `for ambiguous_concept in result.intent_ambiguous` loop:
each newly raised concept is stored unresolved (`None`). -/
def ambAddNew (amb : List (String × Option String)) (newQs : List String) :
    List (String × Option String) :=
  newQs.foldl (fun a c => assocSet a c none) amb

/-- The `table_schema` string built from the schema mapping:
`f"{table_schema}\n{table_name}: {comment}"` folded over the tables. -/
def buildTableSchema (sch : List (String × String)) : String :=
  sch.foldl (fun acc p => acc ++ "\n" ++ p.1 ++ ": " ++ p.2) ""

/-- `QueryAnalyzeNode.analyze_query`. Oracles: `schema` is
`DatabaseManager.get_table_schemas` (`none` = no tables found) as a list of
`(table_name, table_comment)` pairs; `resF` is the structured LLM call,
applied to the state as it stands when the prompt is built; `resume` is the
list of resume values accumulated for this node execution (langgraph replay).
`.error q` models the node suspending with clarification topic `q`. -/
def analyze_query (schema : Option (List (String × String)))
    (resF : DeepState → AnalyzeRes) (resume : List String) (s : DeepState) :
    Except String DeepState :=
  match schema with
  | none => .ok { s with answer := "数据库中没有找到表模型" }
  | some sch =>
    match resolveLoop (get_user_question s) resume s.intent_ambiguous with
    | .error q => .error q
    | .ok amb =>
      let s := { s with intent_ambiguous := amb }
      let s := { s with table_schema := buildTableSchema sch }
      let res := resF s
      let s := if res.cannot_answer ≠ "" then { s with answer := res.cannot_answer } else s
      let s := { s with actual_query := res.actual_query }
      let s := { s with messages := s.messages ++ [QueryMessage.mk "查询分析" res.thought] }
      .ok { s with intent_ambiguous := ambAddNew s.intent_ambiguous res.intent_ambiguous }

end QueryAnalyzeNode

/-! ## Column search node (`src/node/table_search.py`) -/

namespace TableSearchNode

/-- One character of the regex class `[\d,\s]` of the pattern
`\[[\d,\s]+\]` used by `TableSearchNode.search`. -/
def classChar (c : Char) : Bool := c.isDigit || c = ',' || isPyWs c

/-- A match of `\[[\d,\s]+\]` anchored at the head of the list, if any.
Since the class excludes `]`, the greedy `+` either runs up to a `]` (a
match) or fails at this position. -/
def matchAt (l : List Char) : Option (List Char) :=
  match l with
  | '[' :: rest =>
    let run := rest.takeWhile classChar
    if run ≠ [] ∧ (rest.drop run.length).head? = some ']' then
      some ('[' :: run ++ [']'])
    else none
  | _ => none

/-- Python `re.search(r"\[[\d,\s]+\]", text)`: the leftmost match. -/
def reSearchIntList : List Char → Option (List Char)
  | [] => none
  | c :: t =>
    match matchAt (c :: t) with
    | some m => some m
    | none => reSearchIntList t

/-- Decimal value of a digit list. -/
def digitsToNat (l : List Char) : Nat :=
  l.foldl (fun n c => 10 * n + (c.toNat - 48)) 0

/-- One integer item of a JSON array: optional minus sign then digits
(Python `json.loads` element grammar restricted to integers). -/
def parseJsonInt (l : List Char) : Option Int :=
  match l with
  | '-' :: ds =>
    if ds ≠ [] ∧ ds.all Char.isDigit then some (-(digitsToNat ds : Int)) else none
  | ds =>
    if ds ≠ [] ∧ ds.all Char.isDigit then some (digitsToNat ds : Int) else none

/-- `json.loads` restricted to JSON arrays of integers (the only shape the
regex `\[[\d,\s]+\]` can select, and the shape the claims exercise):
`[` items separated by `,` with surrounding whitespace `]`, or an empty
array. `none` models `json.JSONDecodeError`. -/
def parseJsonIntList (s : String) : Option (List Int) :=
  match s.data with
  | '[' :: rest =>
    match rest.reverse with
    | ']' :: mid =>
      let inner := mid.reverse
      if pyStripL inner = [] then some []
      else
        (inner.splitOn ',').mapM (fun item => parseJsonInt (pyStripL item))
    | _ => none
  | _ => none

/-- `TableSearchNode.search`. Oracles: `reply` is the search agent's final
message text for the state; `colMd` and `colCdfMd` are the markdown renderings
of `DatabaseManager.get_by_column_id` for the selected column ids (the full
frame and the three-column display frame). The `isinstance` item validation of
the source is always satisfied on integer arrays, the only shape
`parseJsonIntList` accepts. -/
def searchClean (reply : String) : String :=
  pyStrip (replaceStr (afterLast reply "</think>") "```" "")

/-- The regex narrowing step: if `\[[\d,\s]+\]` matches somewhere in the
cleaned reply, the matched text replaces it. -/
def searchSelect (reply : String) : String :=
  match reSearchIntList (searchClean reply).data with
  | some m => (⟨m⟩ : String)
  | none => searchClean reply

def search (reply : DeepState → String) (colMd colCdfMd : List Int → String)
    (s : DeepState) : DeepState :=
  if s.answer ≠ "" then
    { s with messages := s.messages ++ [QueryMessage.mk "知识搜索" ""] }
  else
    let rt := searchSelect (reply s)
    if startsWithStr rt "[" then
      match parseJsonIntList rt with
      | some cols =>
        { s with schema_context := colMd cols,
                 messages := s.messages ++ [QueryMessage.mk "知识搜索" (colCdfMd cols)] }
      | none => { s with answer := "字段搜索结果解析失败: " ++ rt }
    else { s with answer := rt }

end TableSearchNode

/-! ## SQL generation node (`src/node/sql_coder.py`) -/

namespace SqlCoderNode

/-- The response clean-up of `SqlCoderNode.code_sql`:
`res.split("</think>")[-1].strip()` then
`.replace("```sql", "").replace("```", "").strip()`. -/
def coderClean (res : String) : String :=
  pyStrip (replaceStr (replaceStr (pyStrip (afterLast res "</think>")) "```sql" "") "```" "")

/-- The keyword validation of `code_sql`:
`any(keyword in res.upper() for keyword in ["SELECT", "INSERT", "UPDATE", "DELETE"])`. -/
def hasSqlKeyword (res : String) : Bool :=
  strContains (pyUpper res) "SELECT" || strContains (pyUpper res) "INSERT" ||
    strContains (pyUpper res) "UPDATE" || strContains (pyUpper res) "DELETE"

/-- `SqlCoderNode.code_sql`. The oracle `res` is the LLM reply for the
generation prompt. A non-empty cleaned reply containing a SQL keyword becomes
`final_sql`; otherwise `answer` is set to the fixed failure message and
`final_sql` is left unchanged. -/
def code_sql (res : String) (s : DeepState) : DeepState :=
  if s.answer ≠ "" then
    { s with messages := s.messages ++ [QueryMessage.mk "SQL生成" ""] }
  else
    let s := { s with messages :=
      s.messages ++ [QueryMessage.mk "SQL生成" ("```sql\n" ++ res ++ "\n```")] }
    let r := coderClean res
    if r ≠ "" ∧ hasSqlKeyword r then { s with final_sql := some r }
    else { s with answer := "无法生成有效的SQL语句，请检查查询条件和数据库结构。" }

end SqlCoderNode

/-! ## Execution-and-repair node (`src/node/sql_fix.py`) -/

/-- The nodes of the compiled state graph, as added in `get_sql_copilot`
(`src/sql_copilot.py`). -/
inductive Node
  | query_intent
  | query_analyze
  | table_search
  | sql_coder
  | sql_fix
  | analyzer
deriving DecidableEq, Repr

/-- A router decision: the next node, or langgraph's terminal marker `END`. -/
inductive NextT
  | node (n : Node)
  | END
deriving DecidableEq, Repr

/-- Events logged by the interpreter: `enter n` records the engine invoking
node `n`; `repairCall k` records an invocation of the repair agent
(`agent.invoke` in `fix_sql`) at attempt counter value `k`. -/
inductive Event
  | enter (n : Node)
  | repairCall (k : Nat)
deriving DecidableEq, Repr

namespace SqlFixNode

/-- The exhaustion message of `fix_sql` (`state.cnt > 10`). -/
def exhaustMsg : String := "SQL修复尝试次数过多，请检查查询条件或联系管理员。"

/-- The repair-reply clean-up of `fix_sql`:
`result_text.split("</think>")[-1].replace("```sql", "").replace("```", "").strip()`. -/
def fixClean (result_text : String) : String :=
  pyStrip (replaceStr (replaceStr (afterLast result_text "</think>") "```sql" "") "```" "")

/-- `SqlFixNode.fix_sql`. Oracles: `execO sql k` is the `pd.read_sql` attempt
for `sql` at (post-increment) counter value `k` — `.ok md` is the markdown
rendering of the result frame, `.error e` the stringified exception; `fixO sql
e k` is the repair agent's final message text. The returned event list logs
the repair-agent invocations. -/
def fix_sql (execO : String → Nat → Except String String)
    (fixO : String → String → Nat → String) (s : DeepState) :
    DeepState × List Event :=
  if s.answer ≠ "" then
    ({ s with messages := s.messages ++ [QueryMessage.mk ("SQL修复" ++ toString s.cnt) ""] }, [])
  else
    let sql := s.final_sql.getD ""
    let s := { s with cnt := s.cnt + 1 }
    match execO sql s.cnt with
    | .ok md =>
      let s := { s with query_data := md }
      (if s.intent_type = .query then { s with answer := s.query_data } else s, [])
    | .error err =>
      if s.cnt > 10 then
        ({ s with answer := exhaustMsg }, [])
      else
        let result_text := fixO sql err s.cnt
        let s := { s with messages := s.messages ++
          [QueryMessage.mk ("SQL修复" ++ toString s.cnt)
            ("```sql\n" ++ sql ++ "\n```\n修复错误\n ```\n" ++ err ++ "\n```")] }
        let rt := fixClean result_text
        if strContains rt "[sql]" then
          ({ s with final_sql := some (pyStrip (replaceStr (dropUntilStr rt "[sql]") "[sql]" "")) },
            [Event.repairCall s.cnt])
        else if startsWithStr rt "[回复]" then
          ({ s with answer := pyStrip (replaceStr rt "[回复]" "") }, [Event.repairCall s.cnt])
        else
          ({ s with answer := "SQL修复失败: " ++ rt }, [Event.repairCall s.cnt])

end SqlFixNode

/-! ## Narrative analysis node (`src/node/analyze_node.py`) -/

namespace AnalyzeDataNode

/-- `AnalyzeDataNode.analyze_data`. The oracle `reply` is the LLM analysis
reply for the state; the cleaned reply becomes the answer. -/
def analyze_data (reply : DeepState → String) (s : DeepState) : DeepState :=
  if s.answer ≠ "" then
    { s with messages := s.messages ++ [QueryMessage.mk "报告分析" ""] }
  else
    { s with answer := pyStrip (afterLast (reply s) "</think>") }

end AnalyzeDataNode

/-! ## Graph topology and routers (`src/sql_copilot.py`) -/

/-- `intent_path`: the conditional edge after `query_intent`. -/
def intent_path (s : DeepState) : NextT :=
  if s.intent_type = .other then .END else .node .query_analyze

/-- `analyze_path_map`: the conditional edge after `query_analyze` (defined
inside `get_sql_copilot`). -/
def analyze_path_map (s : DeepState) : NextT :=
  if ¬ (get_user_question s).isEmpty then .node .query_analyze
  else .node .table_search

/-- `fix_path`: the conditional edge after `sql_fix` (defined inside
`get_sql_copilot`). -/
def fix_path (s : DeepState) : NextT :=
  if s.query_data ≠ "" then
    (if s.intent_type = .analyze then .node .analyzer else .END)
  else .node .sql_fix

/-- The edge map of `get_sql_copilot`: conditional edges after
`query_intent`, `query_analyze` and `sql_fix`; fixed edges
`table_search → sql_coder` and `sql_coder → sql_fix`; `analyzer` is the
finish point. -/
def routeAfter : Node → DeepState → NextT
  | .query_intent, s => intent_path s
  | .query_analyze, s => analyze_path_map s
  | .table_search, _ => .node .sql_coder
  | .sql_coder, _ => .node .sql_fix
  | .sql_fix, s => fix_path s
  | .analyzer, _ => .END

/-! ## Workflow engine (langgraph dispatch loop) -/

/-- The collaborator oracles of one compiled graph: LLM replies, schema
lookup, column lookup and SQL execution, each a pure function of what the
corresponding collaborator is shown. -/
structure Collab where
  intentReply : String
  schema : Option (List (String × String))
  analyzeRes : DeepState → AnalyzeRes
  searchReply : DeepState → String
  colMd : List Int → String
  colCdfMd : List Int → String
  coderReply : DeepState → String
  execO : String → Nat → Except String String
  fixO : String → String → Nat → String
  analyzerReply : DeepState → String

/-- Execute one node on a state. `resume` is the accumulated resume-value
list for this node execution (consumed only by `query_analyze`); `.error q`
is a suspension with clarification topic `q`. -/
def stepNode (c : Collab) (resume : List String) :
    Node → DeepState → Except String (DeepState × List Event)
  | .query_intent, s => .ok (QueryIntentNode.parse_intent c.intentReply s, [])
  | .query_analyze, s =>
    (QueryAnalyzeNode.analyze_query c.schema c.analyzeRes resume s).map (fun s' => (s', []))
  | .table_search, s => .ok (TableSearchNode.search c.searchReply c.colMd c.colCdfMd s, [])
  | .sql_coder, s => .ok (SqlCoderNode.code_sql (c.coderReply s) s, [])
  | .sql_fix, s => .ok (SqlFixNode.fix_sql c.execO c.fixO s)
  | .analyzer, s => .ok (AnalyzeDataNode.analyze_data c.analyzerReply s, [])

/-- Outcome of one engine run. `completed` reaches `END`; `suspended` records
the interrupted node, the clarification topic and the state checkpointed at
the node's entry; `limit` is langgraph's recursion limit running out
(`GraphRecursionError`), carrying the last state. -/
inductive RunRes
  | completed (s : DeepState)
  | suspended (n : Node) (topic : String) (s : DeepState)
  | limit (s : DeepState)
deriving DecidableEq, Repr

/-- The state carried by a run outcome. -/
def RunRes.st : RunRes → DeepState
  | .completed s => s
  | .suspended _ _ s => s
  | .limit s => s

/-- Is the outcome `completed`? -/
def RunRes.isCompleted : RunRes → Bool
  | .completed _ => true
  | _ => false

/-- Is the outcome the recursion limit? -/
def RunRes.isLimit : RunRes → Bool
  | .limit _ => true
  | _ => false

/-- The langgraph dispatch loop: execute the node at the cursor, then its
router, until `END` or the recursion limit `fuel` runs out. The resume values
are delivered only to the first node executed (the resumed node); nodes
entered afterwards start with an empty resume buffer. The event trace logs
node entries and repair-agent calls in order. -/
def runGraph (c : Collab) : Nat → List String → Node → DeepState → RunRes × List Event
  | 0, _, _, s => (.limit s, [])
  | fuel + 1, resume, n, s =>
    match stepNode c resume n s with
    | .error topic => (.suspended n topic s, [Event.enter n])
    | .ok (s', ev) =>
      match routeAfter n s' with
      | .node n' =>
        let r := runGraph c fuel [] n' s'
        (r.1, (Event.enter n :: ev) ++ r.2)
      | .END => (.completed s', Event.enter n :: ev)

/-! ## Clarification session loop

The engine-level view of suspension and resume for the clarification stage:
after each suspension the caller resumes with one value, and langgraph
replays the interrupted node with the accumulated value list on the state
checkpointed at the node's entry. -/

/-- Iterate suspension/resume on `analyze_query` until the node completes:
starting from resume values `vals`, each suspension appends the caller's
answer `ansF k` (where `k` is the number of values supplied so far) and
replays. Returns the list of suspension topics in order and the completed
state (`none` if `fuel` ran out). -/
def clarifySession (schema : Option (List (String × String)))
    (resF : DeepState → AnalyzeRes) (s : DeepState) (ansF : Nat → String) :
    Nat → List String → List String × Option DeepState
  | 0, _ => ([], none)
  | fuel + 1, vals =>
    match QueryAnalyzeNode.analyze_query schema resF vals s with
    | .ok s' => ([], some s')
    | .error q =>
      let r := clarifySession schema resF s ansF fuel (vals ++ [ansF vals.length])
      (q :: r.1, r.2)

/-! ## Application layer (`src/app.py`) -/

/-- The `initial_state` dict built by `process_chat`/`stream_chat` for a new
run (note `final_sql` is initialised to the empty string, not `None`). -/
def initial_state (query database_id session_id : String) : DeepState :=
  { user_input := query
    session_id := session_id
    database := database_id
    actual_query := ""
    messages := []
    intent_type := .other
    intent_ambiguous := []
    tables := []
    table_schema := ""
    schema_context := ""
    final_sql := some ""
    query_data := ""
    answer := ""
    cnt := 0 }

/-- A graph invocation issued by the application layer: a new run carrying
the freshly built workflow state, or a resume carrying the user's value. -/
inductive GraphIn
  | newRun (init : DeepState)
  | resumeRun (v : String)
deriving DecidableEq, Repr

/-- The fields of the graph-invocation result that `process_chat` reads. -/
structure InvokeRes where
  answer : String
  final_sql : Option String
  query_data : String
  interruptQ : Option String
deriving DecidableEq, Repr

/-- The dictionary returned by `process_chat` on a normal return. -/
inductive ChatRet
  | completed (answer : String) (sql : Option String) (query_data : String) (session_id : String)
  | interrupted (question : String) (session_id : String)
  | unexpectedState
deriving DecidableEq, Repr

/-- `process_chat` from `src/app.py`. The oracle `graphInvoke` is the
compiled graph's `invoke` (graph construction itself is configuration, not a
run). The second component of the result lists the graph invocations issued:
a new (non-resume) request whose query is empty or whitespace-only raises
`InvalidQueryError` before the initial state is built, so it issues none. -/
def process_chat (graphInvoke : GraphIn → InvokeRes) (query : String)
    (database_id session_id : String) (resume_input : Option String) :
    Except SQLCopilotError ChatRet × List GraphIn :=
  match resume_input with
  | some v =>
    let r := graphInvoke (.resumeRun v)
    (.ok (if r.answer ≠ "" then .completed r.answer r.final_sql r.query_data session_id
          else match r.interruptQ with
            | some q => .interrupted q session_id
            | none => .unexpectedState),
      [.resumeRun v])
  | none =>
    if query = "" ∨ pyStrip query = "" then
      (.error (.invalidQueryError "Query cannot be empty"), [])
    else
      let init := initial_state query database_id session_id
      let r := graphInvoke (.newRun init)
      (.ok (if r.answer ≠ "" then .completed r.answer r.final_sql r.query_data session_id
            else match r.interruptQ with
              | some q => .interrupted q session_id
              | none => .unexpectedState),
        [.newRun init])

/-- `stream_chat` from `src/app.py`, restricted to its input validation and
graph-invocation behaviour (the per-event rendering loop of lines 186-233 is
display-only). The `InvalidQueryError` raised for an empty new query is
caught by the surrounding `except` and surfaced as a single `error` event;
no graph invocation is issued. -/
def stream_chat (graphStream : GraphIn → List String) (query : String)
    (database_id session_id : String) (resume_input : Option String) :
    List String × List GraphIn :=
  match resume_input with
  | some v => (graphStream (.resumeRun v), [.resumeRun v])
  | none =>
    if query = "" ∨ pyStrip query = "" then
      (["error: Query cannot be empty"], [])
    else
      let init := initial_state query database_id session_id
      (graphStream (.newRun init), [.newRun init])

/-! ## Concrete fixtures used by counterexamples and witnesses -/

/-- The unresolved topics of the ambiguity mapping (no emptiness guard);
`get_user_question` agrees with it on every state. -/
def unresolvedKeys (amb : List (String × Option String)) : List String :=
  (amb.filter (fun p => p.2.isNone)).map Prod.fst

/-- Python dict lookup `amb[k]` on the association list. -/
def assocLookup (amb : List (String × Option String)) (k : String) :
    Option (Option String) :=
  match amb with
  | [] => none
  | (k', v) :: t => if k' = k then some v else assocLookup t k

/-- The attempt-counter values of the repair-agent calls in an event trace. -/
def repairCalls (ev : List Event) : List Nat :=
  ev.filterMap (fun e => match e with | .repairCall k => some k | _ => none)

/-- Oracles for the repair-exhaustion scenario: every execution attempt
fails and the repair agent always returns a corrected SQL string. -/
def collabFailing : Collab :=
  { intentReply := "query"
    schema := some [("sales", "销售表")]
    analyzeRes := fun _ => ⟨"思考", [], "", "q"⟩
    searchReply := fun _ => "[1, 2]"
    colMd := fun _ => "md"
    colCdfMd := fun _ => "cdf"
    coderReply := fun _ => "SELECT a FROM t"
    execO := fun _ _ => .error "no such column"
    fixO := fun _ _ _ => "[sql]SELECT a2 FROM t"
    analyzerReply := fun _ => "报告" }

/-- A state as it stands when the repair node is first entered on the happy
path: query intent, generated SQL present, no answer yet. -/
def stateRepair : DeepState :=
  { initial_state "q" "db" "sid" with
    intent_type := .query
    final_sql := some "SELECT a FROM t" }

/-- Oracles for the first-try-success scenario of the spec: intent `query`,
no ambiguity, discovery returns two columns, generation returns the example
SQL, execution succeeds immediately. -/
def collabHappy : Collab :=
  { intentReply := "query"
    schema := some [("sales", "销售表")]
    analyzeRes := fun _ => ⟨"分析思考", [], "", "show top 10 products by sales"⟩
    searchReply := fun _ => "[1, 2]"
    colMd := fun _ => "| product_id | sales_amount |"
    colCdfMd := fun _ => "| 表名 | 列名 | 注释 |"
    coderReply := fun _ =>
      "SELECT product_id, sales_amount FROM sales ORDER BY sales_amount DESC LIMIT 10"
    execO := fun _ _ => .ok "| product_id | sales_amount |\n| 7 | 100 |"
    fixO := fun _ _ _ => ""
    analyzerReply := fun _ => "" }

/-! ## Shared helper lemmas -/

/-- The intent stored by `parse_intent` is the first component of
`_parse_intent_result` on the extracted reply. -/
theorem parse_intent_intent_type (reply : String) (s : DeepState) :
    (QueryIntentNode.parse_intent reply s).intent_type =
      (QueryIntentNode.parse_intent_result (QueryIntentNode.extract_response_text reply)).1 := by
  unfold QueryIntentNode.parse_intent
  dsimp only
  split <;> rfl

/-! ## Claim theorems -/

/-- C8: the transcript (`messages`) is never consulted for routing: the three
routers of `sql_copilot.py` return identical decisions on any two states that
differ only in their transcript. -/
theorem c8_routers_ignore_transcript (s : DeepState) (m : List QueryMessage) :
    intent_path { s with messages := m } = intent_path s ∧
    analyze_path_map { s with messages := m } = analyze_path_map s ∧
    fix_path { s with messages := m } = fix_path s :=
  ⟨rfl, rfl, rfl⟩

/-- C9: a new (non-resume) request whose query is empty or whitespace-only is
rejected with `InvalidQueryError` before any run starts: neither
`process_chat` nor `stream_chat` issues a graph invocation, so no workflow
state is created or persisted and no stage runs. -/
theorem c9_empty_query_rejected (graphInvoke : GraphIn → InvokeRes)
    (graphStream : GraphIn → List String) (query database_id session_id : String)
    (h : query = "" ∨ pyStrip query = "") :
    process_chat graphInvoke query database_id session_id none =
      (.error (.invalidQueryError "Query cannot be empty"), []) ∧
    stream_chat graphStream query database_id session_id none =
      (["error: Query cannot be empty"], []) := by
  constructor <;> simp only [process_chat, stream_chat, if_pos h]

/-- Witness for C9 at the whitespace-only query `"  \n "`. -/
theorem c9_empty_query_rejected_witness :
    ("" = "" ∨ pyStrip "  \n " = "") ∧
    process_chat (fun _ => ⟨"", none, "", none⟩) "  \n " "db" "sid" none =
      (.error (.invalidQueryError "Query cannot be empty"), []) := by
  refine ⟨Or.inl rfl, ?_⟩
  exact (c9_empty_query_rejected (fun _ => ⟨"", none, "", none⟩) (fun _ => [])
    "  \n " "db" "sid" (Or.inr (by decide))).1

/-- C10: whenever `code_sql` updates `final_sql`, the stored text is the
cleaned reply and contains a SQL keyword (case-insensitively); when the
cleaned reply is empty or keyword-free, `final_sql` is unchanged and the
answer becomes the fixed failure message. -/
theorem c10_code_sql_keyword_guard (res : String) (s : DeepState) (h : s.answer = "") :
    ((SqlCoderNode.code_sql res s).final_sql ≠ s.final_sql →
      (SqlCoderNode.code_sql res s).final_sql = some (SqlCoderNode.coderClean res) ∧
        SqlCoderNode.hasSqlKeyword (SqlCoderNode.coderClean res) = true) ∧
    ((SqlCoderNode.coderClean res = "" ∨
        SqlCoderNode.hasSqlKeyword (SqlCoderNode.coderClean res) = false) →
      (SqlCoderNode.code_sql res s).final_sql = s.final_sql ∧
        (SqlCoderNode.code_sql res s).answer =
          "无法生成有效的SQL语句，请检查查询条件和数据库结构。") := by
  unfold SqlCoderNode.code_sql
  rw [if_neg (by simp [h])]
  constructor
  · intro hne
    by_cases hcond : SqlCoderNode.coderClean res ≠ "" ∧
        SqlCoderNode.hasSqlKeyword (SqlCoderNode.coderClean res) = true
    · rw [if_pos hcond] at hne ⊢
      exact ⟨rfl, hcond.2⟩
    · rw [if_neg hcond] at hne
      exact absurd rfl hne
  · intro hbad
    have hcond : ¬ (SqlCoderNode.coderClean res ≠ "" ∧
        SqlCoderNode.hasSqlKeyword (SqlCoderNode.coderClean res) = true) := by
      rcases hbad with hb | hb
      · exact fun hc => hc.1 hb
      · exact fun hc => by rw [hb] at hc; exact Bool.false_ne_true hc.2
    rw [if_neg hcond]
    exact ⟨rfl, rfl⟩

/-- Witness for C10 at a keyword-free reply on a fresh state. -/
theorem c10_code_sql_keyword_guard_witness :
    (initial_state "q" "db" "sid").answer = "" ∧
    (SqlCoderNode.code_sql "抱歉，无法生成" (initial_state "q" "db" "sid")).final_sql =
      (initial_state "q" "db" "sid").final_sql ∧
    (SqlCoderNode.code_sql "抱歉，无法生成" (initial_state "q" "db" "sid")).answer =
      "无法生成有效的SQL语句，请检查查询条件和数据库结构。" := by
  refine ⟨rfl, ?_⟩
  exact (c10_code_sql_keyword_guard "抱歉，无法生成" (initial_state "q" "db" "sid") rfl).2
    (Or.inr (by decide))

/-- C7 counterexample: the reply `"the query"` is not one of the labels
`query`/`analyze`, yet `_parse_intent_result` classifies it as `query` with no
answer (the partial-match rule for replies shorter than 20 characters), not as
`other` with the reply as the answer. -/
theorem c7_freeform_counterexample :
    "the query" ≠ "query" ∧ "the query" ≠ "analyze" ∧
    QueryIntentNode.parse_intent_result "the query" = (.query, none) ∧
    QueryIntentNode.parse_intent_result "the query" ≠ (.other, some "the query") := by
  refine ⟨by decide, by decide, by decide, by decide⟩

/-- C7 amended: a classifier reply whose lowercased, stripped text neither
equals `"query"`/`"analyze"` nor — at fewer than 20 characters — contains
them, is classified `other` with the reply as the answer; `parse_intent`
stores that intent and, for a non-empty reply, the reply as the answer. -/
theorem c7_freeform_is_other (t : String)
    (h1 : pyStrip (pyLower t) ≠ "query")
    (h2 : pyStrip (pyLower t) ≠ "analyze")
    (h3 : ¬ (strContains (pyStrip (pyLower t)) "query" = true ∧
      (pyStrip (pyLower t)).data.length < 20))
    (h4 : ¬ (strContains (pyStrip (pyLower t)) "analyze" = true ∧
      (pyStrip (pyLower t)).data.length < 20)) :
    QueryIntentNode.parse_intent_result t = (.other, some t) ∧
    (∀ reply s, QueryIntentNode.extract_response_text reply = t → t ≠ "" →
      (QueryIntentNode.parse_intent reply s).intent_type = .other ∧
      (QueryIntentNode.parse_intent reply s).answer = t) := by
  have hres : QueryIntentNode.parse_intent_result t = (.other, some t) := by
    unfold QueryIntentNode.parse_intent_result
    rw [if_neg h1, if_neg h2, if_neg h3, if_neg h4]
  refine ⟨hres, fun reply s hext hne => ?_⟩
  unfold QueryIntentNode.parse_intent
  rw [hext]
  dsimp only
  rw [hres]
  dsimp only
  rw [if_pos ⟨rfl, by simpa using hne⟩]
  exact ⟨rfl, by simp⟩

/-- Witness for C7 amended at the freeform reply `"你好，我是数据分析助手"`. -/
theorem c7_freeform_is_other_witness :
    QueryIntentNode.parse_intent_result "你好，我是数据分析助手" =
      (.other, some "你好，我是数据分析助手") ∧
    (QueryIntentNode.parse_intent "你好，我是数据分析助手"
      (initial_state "hi" "db" "sid")).intent_type = .other ∧
    (QueryIntentNode.parse_intent "你好，我是数据分析助手"
      (initial_state "hi" "db" "sid")).answer = "你好，我是数据分析助手" := by
  have h := c7_freeform_is_other "你好，我是数据分析助手"
    (by decide) (by decide) (by decide) (by decide)
  refine ⟨h.1, ?_, ?_⟩
  · exact (h.2 "你好，我是数据分析助手" (initial_state "hi" "db" "sid") (by decide) (by decide)).1
  · exact (h.2 "你好，我是数据分析助手" (initial_state "hi" "db" "sid") (by decide) (by decide)).2

/-- A state with a finished (non-empty) answer but no execution result, as it
stands after the repair node gives up or exhausts its attempts. -/
def stateAnswered : DeepState :=
  { initial_state "q" "db" "sid" with answer := "查询无法完成", cnt := 11 }

/-- C2 counterexample: with a non-empty `answer` and empty `query_data`, the
router after the repair stage routes back to `sql_fix`, not to the terminal
marker — the engine does not route unconditionally to termination once the
answer is set. -/
theorem c2_fixpath_counterexample :
    stateAnswered.answer ≠ "" ∧ stateAnswered.query_data = "" ∧
    fix_path stateAnswered = NextT.node Node.sql_fix ∧
    fix_path stateAnswered ≠ NextT.END := by
  refine ⟨by decide, by decide, by decide, by decide⟩

/-- C2 amended: once `answer` is non-empty, each of the discovery, generation,
repair and summarize stages short-circuits — the guard lives inside each
stage, not in the engine — returning the state unchanged except for one
appended transcript entry (in particular never overwriting the answer); but
the router after the repair stage keeps routing back to `sql_fix` whenever
`query_data` is empty, so routing to termination is not unconditional. -/
theorem c2_answer_shortcircuit (s : DeepState) (h : s.answer ≠ "") :
    (∀ reply colMd colCdfMd, TableSearchNode.search reply colMd colCdfMd s =
      { s with messages := s.messages ++ [QueryMessage.mk "知识搜索" ""] }) ∧
    (∀ res, SqlCoderNode.code_sql res s =
      { s with messages := s.messages ++ [QueryMessage.mk "SQL生成" ""] }) ∧
    (∀ execO fixO, SqlFixNode.fix_sql execO fixO s =
      ({ s with messages := s.messages ++
        [QueryMessage.mk ("SQL修复" ++ toString s.cnt) ""] }, [])) ∧
    (∀ reply, AnalyzeDataNode.analyze_data reply s =
      { s with messages := s.messages ++ [QueryMessage.mk "报告分析" ""] }) ∧
    (s.query_data = "" → fix_path s = .node .sql_fix) := by
  refine ⟨?_, ?_, ?_, ?_, ?_⟩
  · intro reply colMd colCdfMd
    unfold TableSearchNode.search
    rw [if_pos h]
  · intro res
    unfold SqlCoderNode.code_sql
    rw [if_pos h]
  · intro execO fixO
    unfold SqlFixNode.fix_sql
    rw [if_pos h]
  · intro reply
    unfold AnalyzeDataNode.analyze_data
    rw [if_pos h]
  · intro hq
    unfold fix_path
    rw [if_neg (by simp [hq])]

/-- Witness for C2 amended at the answered state. -/
theorem c2_answer_shortcircuit_witness :
    stateAnswered.answer ≠ "" ∧
    SqlCoderNode.code_sql "SELECT 1" stateAnswered =
      { stateAnswered with messages := stateAnswered.messages ++
        [QueryMessage.mk "SQL生成" ""] } ∧
    fix_path stateAnswered = .node .sql_fix := by
  have h := c2_answer_shortcircuit stateAnswered (by decide)
  exact ⟨by decide, h.2.1 "SELECT 1", h.2.2.2.2 rfl⟩

/-- C6: when the classify-intent stage classifies the reply as `other`, the
router after it returns the terminal marker and the run completes having
entered only the `query_intent` node: discovery, generation, repair and
summarize are never invoked. -/
theorem c6_other_terminates_run (c : Collab) (fuel : Nat) (resume : List String)
    (s : DeepState)
    (h : (QueryIntentNode.parse_intent_result
      (QueryIntentNode.extract_response_text c.intentReply)).1 = .other) :
    intent_path (QueryIntentNode.parse_intent c.intentReply s) = NextT.END ∧
    (runGraph c (fuel + 1) resume .query_intent s).1 =
      .completed (QueryIntentNode.parse_intent c.intentReply s) ∧
    (runGraph c (fuel + 1) resume .query_intent s).2 = [Event.enter .query_intent] := by
  have hs : (QueryIntentNode.parse_intent c.intentReply s).intent_type = .other := by
    rw [parse_intent_intent_type, h]
  have hpath : intent_path (QueryIntentNode.parse_intent c.intentReply s) = NextT.END := by
    unfold intent_path
    rw [if_pos hs]
  refine ⟨hpath, ?_, ?_⟩ <;>
    simp [runGraph, stepNode, routeAfter, hpath]

/-- Witness for C6 at a freeform greeting reply. -/
theorem c6_other_terminates_run_witness :
    (QueryIntentNode.parse_intent_result
      (QueryIntentNode.extract_response_text "您好！我是数据分析助手。")).1 = .other ∧
    (runGraph { collabHappy with intentReply := "您好！我是数据分析助手。" } 10 []
      .query_intent (initial_state "你好" "db" "sid")).2 = [Event.enter .query_intent] := by
  refine ⟨by decide, ?_⟩
  exact (c6_other_terminates_run { collabHappy with intentReply := "您好！我是数据分析助手。" }
    9 [] (initial_state "你好" "db" "sid") (by decide)).2.2

/-- C1 counterexample: a run of always-failing executions reaches the
exhaustion outcome with `attempt_count = 11`, not at most 10: the exhaustion
check `cnt > 10` fires on the 11th failed execution, after 10 repair calls
(`repairCalls = [1..10]`); moreover the graph then loops on the repair node
until the recursion limit instead of completing. -/
theorem c1_exhaustion_counterexample :
    (runGraph collabFailing 12 [] .sql_fix stateRepair).1.st.answer =
      SqlFixNode.exhaustMsg ∧
    (runGraph collabFailing 12 [] .sql_fix stateRepair).1.st.cnt = 11 ∧
    ¬ (runGraph collabFailing 12 [] .sql_fix stateRepair).1.st.cnt ≤ 10 ∧
    repairCalls (runGraph collabFailing 12 [] .sql_fix stateRepair).2 =
      [1, 2, 3, 4, 5, 6, 7, 8, 9, 10] ∧
    (runGraph collabFailing 12 [] .sql_fix stateRepair).1.isLimit = true := by
  refine ⟨by decide, by decide, by decide, by decide, by decide⟩

/-- C1 amended: `cnt` is incremented before each execution attempt and the
ceiling check `cnt > 10` is evaluated after a failed execution, so exactly 10
repair attempts are permitted: in any single repair-stage invocation a
repair-agent call happens only at counter value `cnt + 1 ≤ 10` (so an 11th
repair call is impossible from a fresh run), and when the incremented counter
exceeds 10 on a failed execution the stage sets the fixed exhaustion message
with `cnt + 1 = 11` as the final counter and makes no repair call. -/
theorem c1_repair_ceiling (execO : String → Nat → Except String String)
    (fixO : String → String → Nat → String) (s : DeepState) (h : s.answer = "") :
    (∀ k, Event.repairCall k ∈ (SqlFixNode.fix_sql execO fixO s).2 →
      k = s.cnt + 1 ∧ k ≤ 10) ∧
    (∀ e, execO (s.final_sql.getD "") (s.cnt + 1) = .error e → s.cnt + 1 > 10 →
      (SqlFixNode.fix_sql execO fixO s).1.answer = SqlFixNode.exhaustMsg ∧
      (SqlFixNode.fix_sql execO fixO s).1.cnt = s.cnt + 1 ∧
      (SqlFixNode.fix_sql execO fixO s).2 = []) := by
  unfold SqlFixNode.fix_sql
  rw [if_neg (by simp [h])]
  dsimp only
  constructor
  · intro k hk
    rcases hexec : execO (s.final_sql.getD "") (s.cnt + 1) with e | md
    · rw [hexec] at hk
      dsimp only at hk
      by_cases hceil : s.cnt + 1 > 10
      · rw [if_pos hceil] at hk
        simp at hk
      · rw [if_neg hceil] at hk
        have hle : s.cnt + 1 ≤ 10 := Nat.le_of_not_lt hceil
        split at hk
        · simp at hk
          exact ⟨hk.symm ▸ rfl, hk ▸ hle⟩
        · split at hk
          · simp at hk
            exact ⟨hk.symm ▸ rfl, hk ▸ hle⟩
          · simp at hk
            exact ⟨hk.symm ▸ rfl, hk ▸ hle⟩
    · rw [hexec] at hk
      simp at hk
  · intro e hexec hceil
    rw [hexec]
    dsimp only
    rw [if_pos hceil]
    exact ⟨rfl, rfl, rfl⟩

/-- Witness for C1 amended: first invocation of the repair stage on the
always-failing oracles makes its repair call at counter value 1 ≤ 10. -/
theorem c1_repair_ceiling_witness :
    stateRepair.answer = "" ∧
    (SqlFixNode.fix_sql collabFailing.execO collabFailing.fixO stateRepair).2 =
      [Event.repairCall 1] ∧
    (1 = stateRepair.cnt + 1 ∧ 1 ≤ 10) := by
  refine ⟨rfl, by decide, ?_⟩
  exact (c1_repair_ceiling collabFailing.execO collabFailing.fixO stateRepair rfl).1
    1 (by decide)

/-- `resolveLoop` with no pending questions completes immediately. -/
theorem resolveLoop_nil (vs : List String) (amb : List (String × Option String)) :
    QueryAnalyzeNode.resolveLoop [] vs amb = .ok amb := rfl

/-- C3 counterexample: on the spec's first-try-success scenario the run
completes with the tabular result as the answer, but `attempt_count` is 1,
not 0 — `cnt` is incremented before the (successful) execution attempt. -/
theorem c3_happy_counterexample :
    (runGraph collabHappy 10 []
      .query_intent (initial_state "show top 10 products by sales" "chenjie" "default")).1.isCompleted
      = true ∧
    (runGraph collabHappy 10 []
      .query_intent (initial_state "show top 10 products by sales" "chenjie" "default")).1.st.answer
      = "| product_id | sales_amount |\n| 7 | 100 |" ∧
    (runGraph collabHappy 10 []
      .query_intent (initial_state "show top 10 products by sales" "chenjie" "default")).1.st.cnt
      = 1 ∧
    (runGraph collabHappy 10 []
      .query_intent (initial_state "show top 10 products by sales" "chenjie" "default")).1.st.cnt
      ≠ 0 := by
  refine ⟨by decide, by decide, by decide, by decide⟩

/-- C3 amended: for every run in which the intent classifies as `query`, no
ambiguity is raised, discovery parses a column list, generation yields a
keyword-bearing SQL and the first execution succeeds with a non-empty tabular
result, the run completes with the tabular result as the answer and
`attempt_count = 1` (the counter counts execution attempts, including the
successful first one), entering each stage exactly once and never the
summarize stage. -/
theorem c3_first_try_success (q db sid irep srep crep md : String)
    (sch : List (String × String)) (ares : AnalyzeRes) (cols : List Int)
    (colMd colCdfMd : List Int → String)
    (execO : String → Nat → Except String String)
    (fixO : String → String → Nat → String) (arep : DeepState → String)
    (h1 : QueryIntentNode.parse_intent_result
      (QueryIntentNode.extract_response_text irep) = (.query, none))
    (h2 : ares.cannot_answer = "")
    (h3 : ares.intent_ambiguous = [])
    (h4 : startsWithStr (TableSearchNode.searchSelect srep) "[" = true)
    (h5 : TableSearchNode.parseJsonIntList (TableSearchNode.searchSelect srep) = some cols)
    (h6 : SqlCoderNode.coderClean crep ≠ "")
    (h7 : SqlCoderNode.hasSqlKeyword (SqlCoderNode.coderClean crep) = true)
    (h8 : execO (SqlCoderNode.coderClean crep) 1 = Except.ok md)
    (h9 : md ≠ "") :
    (runGraph ⟨irep, some sch, fun _ => ares, fun _ => srep, colMd, colCdfMd,
        fun _ => crep, execO, fixO, arep⟩ 6 [] .query_intent
        (initial_state q db sid)).1.isCompleted = true ∧
    (runGraph ⟨irep, some sch, fun _ => ares, fun _ => srep, colMd, colCdfMd,
        fun _ => crep, execO, fixO, arep⟩ 6 [] .query_intent
        (initial_state q db sid)).1.st.cnt = 1 ∧
    (runGraph ⟨irep, some sch, fun _ => ares, fun _ => srep, colMd, colCdfMd,
        fun _ => crep, execO, fixO, arep⟩ 6 [] .query_intent
        (initial_state q db sid)).1.st.answer = md ∧
    (runGraph ⟨irep, some sch, fun _ => ares, fun _ => srep, colMd, colCdfMd,
        fun _ => crep, execO, fixO, arep⟩ 6 [] .query_intent
        (initial_state q db sid)).2 =
      [.enter .query_intent, .enter .query_analyze, .enter .table_search,
        .enter .sql_coder, .enter .sql_fix] := by
  simp only [runGraph, stepNode, routeAfter, initial_state,
    QueryIntentNode.parse_intent, QueryAnalyzeNode.analyze_query,
    QueryAnalyzeNode.ambAddNew,
    TableSearchNode.search, SqlCoderNode.code_sql, SqlFixNode.fix_sql,
    AnalyzeDataNode.analyze_data, intent_path, analyze_path_map, fix_path,
    get_user_question, h1, h2, h3, h4, h5, h6, h7, h8, h9,
    resolveLoop_nil, Except.map, List.foldl]
  simp [RunRes.isCompleted, RunRes.st, h1, h2, h3, h4, h5, h6, h7, h8, h9,
    resolveLoop_nil]

/-- Witness for C3 amended at the spec's concrete scenario oracles. -/
theorem c3_first_try_success_witness :
    (runGraph ⟨"query", some [("sales", "销售表")],
        fun _ => ⟨"分析思考", [], "", "show top 10 products by sales"⟩,
        fun _ => "[1, 2]", fun _ => "| product_id | sales_amount |",
        fun _ => "| 表名 | 列名 | 注释 |",
        fun _ => "SELECT product_id, sales_amount FROM sales ORDER BY sales_amount DESC LIMIT 10",
        fun _ _ => .ok "| product_id | sales_amount |\n| 7 | 100 |",
        fun _ _ _ => "", fun _ => ""⟩ 6 [] .query_intent
        (initial_state "show top 10 products by sales" "chenjie" "default")).1.isCompleted
      = true ∧
    (runGraph ⟨"query", some [("sales", "销售表")],
        fun _ => ⟨"分析思考", [], "", "show top 10 products by sales"⟩,
        fun _ => "[1, 2]", fun _ => "| product_id | sales_amount |",
        fun _ => "| 表名 | 列名 | 注释 |",
        fun _ => "SELECT product_id, sales_amount FROM sales ORDER BY sales_amount DESC LIMIT 10",
        fun _ _ => .ok "| product_id | sales_amount |\n| 7 | 100 |",
        fun _ _ _ => "", fun _ => ""⟩ 6 [] .query_intent
        (initial_state "show top 10 products by sales" "chenjie" "default")).1.st.cnt = 1 := by
  have h := c3_first_try_success "show top 10 products by sales" "chenjie" "default"
    "query" "[1, 2]"
    "SELECT product_id, sales_amount FROM sales ORDER BY sales_amount DESC LIMIT 10"
    "| product_id | sales_amount |\n| 7 | 100 |"
    [("sales", "销售表")] ⟨"分析思考", [], "", "show top 10 products by sales"⟩
    [1, 2] (fun _ => "| product_id | sales_amount |") (fun _ => "| 表名 | 列名 | 注释 |")
    (fun _ _ => .ok "| product_id | sales_amount |\n| 7 | 100 |") (fun _ _ _ => "")
    (fun _ => "") (by decide) rfl rfl (by decide) (by decide) (by decide) (by decide)
    rfl (by decide)
  exact ⟨h.1, h.2.1⟩

/-! ## Lemmas about the ambiguity mapping -/

/-- Setting a key that is present leaves the key list unchanged. -/
theorem ambKeys_assocSet_of_mem (amb : List (String × Option String)) (k : String)
    (v : Option String) (h : k ∈ ambKeys amb) :
    ambKeys (assocSet amb k v) = ambKeys amb := by
  induction amb with
  | nil => simp [ambKeys] at h
  | cons p t ih =>
    by_cases hk : p.1 = k
    · simp [assocSet, hk, ambKeys]
    · have hmem : k ∈ ambKeys t := by
        simp [ambKeys] at h
        rcases h with h | h
        · exact absurd h.symm hk
        · simpa [ambKeys] using h
      simp [assocSet, hk, ambKeys]
      simpa [ambKeys] using ih hmem

/-- Keys survive any assignment. -/
theorem mem_ambKeys_assocSet (amb : List (String × Option String)) (k q : String)
    (v : Option String) (h : k ∈ ambKeys amb) :
    k ∈ ambKeys (assocSet amb q v) := by
  induction amb with
  | nil => simp [ambKeys] at h
  | cons p t ih =>
    by_cases hq : p.1 = q
    · simp [assocSet, hq, ambKeys] at h ⊢
      rcases h with h | h
      · exact Or.inl (hq ▸ h)
      · exact Or.inr h
    · simp [assocSet, hq, ambKeys] at h ⊢
      rcases h with h | h
      · exact Or.inl h
      · exact Or.inr (by simpa [ambKeys] using ih (by simpa [ambKeys] using h))

/-- Lookup after assignment at the same key returns the assigned value. -/
theorem assocLookup_assocSet_self (amb : List (String × Option String)) (k : String)
    (v : Option String) : assocLookup (assocSet amb k v) k = some v := by
  induction amb with
  | nil => simp [assocSet, assocLookup]
  | cons p t ih =>
    by_cases hk : p.1 = k
    · simp [assocSet, hk, assocLookup]
    · simp [assocSet, hk, assocLookup, ih]

/-- Lookup at a different key is unchanged by an assignment. -/
theorem assocLookup_assocSet_ne (amb : List (String × Option String)) (k q : String)
    (v : Option String) (h : k ≠ q) :
    assocLookup (assocSet amb q v) k = assocLookup amb k := by
  have hqk : ¬ q = k := fun he => h he.symm
  induction amb with
  | nil => simp [assocSet, assocLookup, hqk]
  | cons p t ih =>
    rcases p with ⟨k1, v1⟩
    by_cases hq : k1 = q
    · subst hq
      simp [assocSet, assocLookup, hqk]
    · by_cases hk : k1 = k
      · simp [assocSet, hq, assocLookup, hk, h]
      · simp [assocSet, hq, assocLookup, hk, ih]

/-- The unresolved keys are a sublist of all keys. -/
theorem unresolvedKeys_sublist (amb : List (String × Option String)) :
    List.Sublist (unresolvedKeys amb) (ambKeys amb) :=
  (List.filter_sublist amb).map Prod.fst

/-- An unresolved entry at the head of the unresolved list. -/
theorem unresolvedKeys_cons_none (k : String) (t : List (String × Option String)) :
    unresolvedKeys ((k, none) :: t) = k :: unresolvedKeys t := by
  simp [unresolvedKeys]

/-- A resolved entry contributes nothing to the unresolved list. -/
theorem unresolvedKeys_cons_some (k w : String) (t : List (String × Option String)) :
    unresolvedKeys ((k, some w) :: t) = unresolvedKeys t := by
  simp [unresolvedKeys]

/-- Resolving the first unresolved key removes exactly it from the unresolved
list, provided the keys are distinct. -/
theorem unresolvedKeys_assocSet_head (amb : List (String × Option String))
    (q v : String) (rest : List String) (hnd : (ambKeys amb).Nodup)
    (hu : unresolvedKeys amb = q :: rest) :
    unresolvedKeys (assocSet amb q (some v)) = rest := by
  induction amb with
  | nil => simp [unresolvedKeys] at hu
  | cons p t ih =>
    rcases p with ⟨k1, v1⟩
    have hnd2 : k1 ∉ ambKeys t ∧ (ambKeys t).Nodup := by
      simpa [ambKeys] using hnd
    cases v1 with
    | none =>
      rw [unresolvedKeys_cons_none] at hu
      have hk : k1 = q := (List.cons_eq_cons.mp hu).1
      subst hk
      rw [show assocSet ((k1, none) :: t) k1 (some v) = (k1, some v) :: t by
        simp [assocSet]]
      rw [unresolvedKeys_cons_some]
      exact (List.cons_eq_cons.mp hu).2
    | some w =>
      rw [unresolvedKeys_cons_some] at hu
      have hqt : q ∈ ambKeys t := (unresolvedKeys_sublist t).mem (hu ▸ List.mem_cons_self q rest)
      have hk : ¬ k1 = q := fun he => hnd2.1 (he ▸ hqt)
      rw [show assocSet ((k1, some w) :: t) q (some v) = (k1, some w) :: assocSet t q (some v) by
        simp [assocSet, hk]]
      rw [unresolvedKeys_cons_some]
      exact ih hnd2.2 hu

/-- With fewer resume values than pending questions, the clarification loop
suspends at the first question that has no value: the `(k+1)`-th suspension
raises the `(k+1)`-th unresolved topic. -/
theorem resolveLoop_error_of_lt (qs vs : List String)
    (amb : List (String × Option String)) (h : vs.length < qs.length) :
    QueryAnalyzeNode.resolveLoop qs vs amb = .error (qs.getD vs.length "") := by
  induction qs generalizing vs amb with
  | nil => simp at h
  | cons q qs ih =>
    cases vs with
    | nil => rfl
    | cons v vs =>
      simp only [QueryAnalyzeNode.resolveLoop]
      rw [ih vs (assocSet amb q (some v)) (by simpa using h)]
      rfl

/-- With at least as many resume values as questions, the loop completes. -/
theorem resolveLoop_ok_of_le (qs vs : List String)
    (amb : List (String × Option String)) (h : qs.length ≤ vs.length) :
    ∃ amb', QueryAnalyzeNode.resolveLoop qs vs amb = .ok amb' := by
  induction qs generalizing vs amb with
  | nil => exact ⟨amb, rfl⟩
  | cons q qs ih =>
    cases vs with
    | nil => simp at h
    | cons v vs =>
      exact ih vs (assocSet amb q (some v)) (by simpa using h)

/-- Keys not touched by the loop keep their lookup value. -/
theorem resolveLoop_lookup_of_not_mem (qs vs : List String)
    (amb amb' : List (String × Option String)) (k : String) (hk : k ∉ qs)
    (h : QueryAnalyzeNode.resolveLoop qs vs amb = .ok amb') :
    assocLookup amb' k = assocLookup amb k := by
  induction qs generalizing vs amb with
  | nil =>
    cases h
    rfl
  | cons q qs ih =>
    cases vs with
    | nil => simp [QueryAnalyzeNode.resolveLoop] at h
    | cons v vs =>
      have hne : k ≠ q := fun he => hk (he ▸ List.mem_cons_self q qs)
      have hk2 : k ∉ qs := fun hx => hk (List.mem_cons_of_mem q hx)
      rw [ih vs (assocSet amb q (some v)) hk2 h]
      exact assocLookup_assocSet_ne amb k q (some v) hne

/-- The loop never adds or removes keys when every question is already a key
(Python dict update-in-place). -/
theorem resolveLoop_keys (qs vs : List String)
    (amb amb' : List (String × Option String)) (hq : ∀ x ∈ qs, x ∈ ambKeys amb)
    (h : QueryAnalyzeNode.resolveLoop qs vs amb = .ok amb') :
    ambKeys amb' = ambKeys amb := by
  induction qs generalizing vs amb with
  | nil =>
    cases h
    rfl
  | cons q qs ih =>
    cases vs with
    | nil => simp [QueryAnalyzeNode.resolveLoop] at h
    | cons v vs =>
      have hmem : q ∈ ambKeys amb := hq q (List.mem_cons_self q qs)
      have hkeys : ambKeys (assocSet amb q (some v)) = ambKeys amb :=
        ambKeys_assocSet_of_mem amb q (some v) hmem
      have hq2 : ∀ x ∈ qs, x ∈ ambKeys (assocSet amb q (some v)) :=
        fun x hx => hkeys ▸ hq x (List.mem_cons_of_mem q hx)
      rw [ih vs (assocSet amb q (some v)) hq2 h, hkeys]

/-- Each question receives the positionally matching resume value: after the
loop completes over distinct questions, question `i` maps to value `i`. -/
theorem resolveLoop_lookup (qs vs : List String)
    (amb amb' : List (String × Option String)) (hnd : qs.Nodup)
    (h : QueryAnalyzeNode.resolveLoop qs vs amb = .ok amb') :
    ∀ i, i < qs.length → assocLookup amb' (qs.getD i "") = some (some (vs.getD i "")) := by
  induction qs generalizing vs amb with
  | nil => intro i hi; simp at hi
  | cons q qs ih =>
    cases vs with
    | nil => simp [QueryAnalyzeNode.resolveLoop] at h
    | cons v vs =>
      intro i hi
      cases i with
      | zero =>
        have hq : q ∉ qs := (List.nodup_cons.mp hnd).1
        rw [show (q :: qs).getD 0 "" = q from rfl, show (v :: vs).getD 0 "" = v from rfl]
        rw [resolveLoop_lookup_of_not_mem qs vs (assocSet amb q (some v)) amb' q hq h]
        exact assocLookup_assocSet_self amb q (some v)
      | succ i =>
        have := ih vs (assocSet amb q (some v)) (List.nodup_cons.mp hnd).2 h i
          (by simpa using hi)
        simpa using this

/-- After the loop resolves every unresolved key (with distinct dict keys),
no unresolved entries remain. -/
theorem resolveLoop_unresolved_nil (qs vs : List String)
    (amb amb' : List (String × Option String)) (hnd : (ambKeys amb).Nodup)
    (hq : unresolvedKeys amb = qs)
    (h : QueryAnalyzeNode.resolveLoop qs vs amb = .ok amb') :
    unresolvedKeys amb' = [] := by
  induction qs generalizing vs amb with
  | nil =>
    cases h
    exact hq
  | cons q qs ih =>
    cases vs with
    | nil => simp [QueryAnalyzeNode.resolveLoop] at h
    | cons v vs =>
      have hmem : q ∈ ambKeys amb :=
        (unresolvedKeys_sublist amb).mem (hq ▸ List.mem_cons_self q qs)
      have hnd1 : (ambKeys (assocSet amb q (some v))).Nodup := by
        rw [ambKeys_assocSet_of_mem amb q (some v) hmem]
        exact hnd
      have hu1 : unresolvedKeys (assocSet amb q (some v)) = qs :=
        unresolvedKeys_assocSet_head amb q v qs hnd hq
      exact ih vs (assocSet amb q (some v)) hnd1 hu1 h

/-- `get_user_question` is exactly the unresolved keys of the state. -/
theorem get_user_question_eq (s : DeepState) :
    get_user_question s = unresolvedKeys s.intent_ambiguous := by
  unfold get_user_question
  split
  · rename_i hemp
    rw [List.isEmpty_iff.mp hemp]
    rfl
  · rfl

/-- Adding new unresolved concepts never removes keys. -/
theorem mem_ambKeys_ambAddNew (amb : List (String × Option String))
    (newQs : List String) (k : String) (h : k ∈ ambKeys amb) :
    k ∈ ambKeys (QueryAnalyzeNode.ambAddNew amb newQs) := by
  induction newQs generalizing amb with
  | nil => exact h
  | cons c cs ih =>
    exact ih (assocSet amb c none) (mem_ambKeys_assocSet amb k c none h)

/-- When the resolution loop completes, `analyze_query` completes, and (when
the LLM raises no new concepts) its final ambiguity mapping is exactly the
resolved mapping. -/
theorem analyze_query_ok (sch : List (String × String)) (resF : DeepState → AnalyzeRes)
    (hnew : ∀ x, (resF x).intent_ambiguous = []) (vals : List String) (s : DeepState)
    (amb' : List (String × Option String))
    (h : QueryAnalyzeNode.resolveLoop (get_user_question s) vals s.intent_ambiguous = .ok amb') :
    ∃ s', QueryAnalyzeNode.analyze_query (some sch) resF vals s = .ok s' ∧
      s'.intent_ambiguous = amb' := by
  unfold QueryAnalyzeNode.analyze_query
  rw [h]
  dsimp only
  split
  · exact ⟨_, rfl, by simp [QueryAnalyzeNode.ambAddNew, hnew]⟩
  · exact ⟨_, rfl, by simp [QueryAnalyzeNode.ambAddNew, hnew]⟩

/-- When the resolution loop suspends, `analyze_query` suspends with the same
topic. -/
theorem analyze_query_error (sch : List (String × String))
    (resF : DeepState → AnalyzeRes) (vals : List String) (s : DeepState) (q : String)
    (h : QueryAnalyzeNode.resolveLoop (get_user_question s) vals s.intent_ambiguous = .error q) :
    QueryAnalyzeNode.analyze_query (some sch) resF vals s = .error q := by
  unfold QueryAnalyzeNode.analyze_query
  rw [h]

/-- One step of `clarifySession`. -/
theorem clarifySession_succ (schema : Option (List (String × String)))
    (resF : DeepState → AnalyzeRes) (s : DeepState) (ansF : Nat → String)
    (fuel : Nat) (vals : List String) :
    clarifySession schema resF s ansF (fuel + 1) vals =
      match QueryAnalyzeNode.analyze_query schema resF vals s with
      | .ok s' => ([], some s')
      | .error q =>
        ((q :: (clarifySession schema resF s ansF fuel (vals ++ [ansF vals.length])).1),
          (clarifySession schema resF s ansF fuel (vals ++ [ansF vals.length])).2) := rfl

/-- The clarification session, started with `j` values already supplied,
suspends once for each remaining unresolved topic in order and then
completes with no unresolved entries left. -/
theorem clarify_aux (sch : List (String × String)) (resF : DeepState → AnalyzeRes)
    (hnew : ∀ x, (resF x).intent_ambiguous = []) (s : DeepState) (ansF : Nat → String)
    (hnd : (ambKeys s.intent_ambiguous).Nodup) :
    ∀ d j vals, vals.length = j → j + d = (get_user_question s).length →
      ∃ s', clarifySession (some sch) resF s ansF (d + 1) vals =
          ((get_user_question s).drop j, some s') ∧
        get_user_question s' = [] := by
  intro d
  induction d with
  | zero =>
    intro j vals hlen hsum
    have hle : (get_user_question s).length ≤ vals.length := by omega
    obtain ⟨amb', hok⟩ := resolveLoop_ok_of_le _ vals s.intent_ambiguous hle
    obtain ⟨s', hq, hamb⟩ := analyze_query_ok sch resF hnew vals s amb' hok
    have hdrop : (get_user_question s).drop j = [] := by
      rw [show j = (get_user_question s).length by omega]
      exact List.drop_length _
    refine ⟨s', ?_, ?_⟩
    · simp [clarifySession, hq, hdrop]
    · rw [get_user_question_eq, hamb]
      exact resolveLoop_unresolved_nil _ vals s.intent_ambiguous amb' hnd
        (get_user_question_eq s).symm hok
  | succ d ih =>
    intro j vals hlen hsum
    have hlt : vals.length < (get_user_question s).length := by omega
    have hltj : j < (get_user_question s).length := hlen ▸ hlt
    have herr := resolveLoop_error_of_lt _ vals s.intent_ambiguous hlt
    have hq := analyze_query_error sch resF vals s _ herr
    obtain ⟨s', hrec, hdone⟩ :=
      ih (j + 1) (vals ++ [ansF vals.length]) (by simp [hlen]) (by omega)
    refine ⟨s', ?_, hdone⟩
    rw [clarifySession_succ, hq]
    dsimp only
    rw [hrec]
    dsimp only
    rw [hlen]
    rw [List.getD_eq_getElem (get_user_question s) "" hltj]
    rw [← List.drop_eq_getElem_cons hltj]

/-- C4: while any ambiguity entry is unresolved, the router after the
clarification stage re-enters it (never field discovery); a session with N
unresolved entries suspends exactly N times — once per topic, in order, all
topics distinct — and only then routes to field discovery. -/
theorem c4_suspend_once_per_topic (sch : List (String × String))
    (resF : DeepState → AnalyzeRes) (s : DeepState) (ansF : Nat → String)
    (hnd : (ambKeys s.intent_ambiguous).Nodup)
    (hnew : ∀ x, (resF x).intent_ambiguous = []) :
    (∀ s₀ : DeepState, get_user_question s₀ ≠ [] →
      analyze_path_map s₀ = .node .query_analyze) ∧
    ∃ s', clarifySession (some sch) resF s ansF ((get_user_question s).length + 1) [] =
        (get_user_question s, some s') ∧
      (get_user_question s).Nodup ∧
      analyze_path_map s' = .node .table_search := by
  constructor
  · intro s₀ h
    unfold analyze_path_map
    rw [if_pos (fun hc => h (List.isEmpty_iff.mp hc))]
  · obtain ⟨s', heq, hdone⟩ :=
      clarify_aux sch resF hnew s ansF hnd (get_user_question s).length 0 [] rfl
        (by omega)
    refine ⟨s', ?_, ?_, ?_⟩
    · simpa using heq
    · rw [get_user_question_eq]
      exact hnd.sublist (unresolvedKeys_sublist s.intent_ambiguous)
    · unfold analyze_path_map
      rw [if_neg (by simp [hdone])]

/-- The state used by the clarification witnesses: two unresolved topics. -/
def stateTwoAmb : DeepState :=
  { initial_state "top products" "db" "sid" with
    intent_ambiguous := [("指标", none), ("时间范围", none)] }

/-- Witness for C4 at two unresolved topics: exactly two suspensions, in
order, then routing to field discovery. -/
theorem c4_suspend_once_per_topic_witness :
    ∃ s', clarifySession (some [("t", "c")]) (fun _ => ⟨"", [], "", "q2"⟩)
        stateTwoAmb (fun _ => "销售额") 3 [] = (["指标", "时间范围"], some s') ∧
      analyze_path_map s' = .node .table_search := by
  have h := c4_suspend_once_per_topic [("t", "c")] (fun _ => ⟨"", [], "", "q2"⟩)
    stateTwoAmb (fun _ => "销售额") (by decide) (fun _ => rfl)
  obtain ⟨s', heq, _, hroute⟩ := h.2
  exact ⟨s', heq, hroute⟩

/-- Keys survive the whole resolution loop. -/
theorem resolveLoop_mem_keys (qs vs : List String)
    (amb amb' : List (String × Option String)) (k : String)
    (hk : k ∈ ambKeys amb)
    (h : QueryAnalyzeNode.resolveLoop qs vs amb = .ok amb') :
    k ∈ ambKeys amb' := by
  induction qs generalizing vs amb with
  | nil =>
    cases h
    exact hk
  | cons q qs ih =>
    cases vs with
    | nil => simp [QueryAnalyzeNode.resolveLoop] at h
    | cons v vs =>
      exact ih vs (assocSet amb q (some v)) (mem_ambKeys_assocSet amb k q (some v) hk) h

/-- The intent node never touches the ambiguity mapping. -/
theorem parse_intent_amb (reply : String) (s : DeepState) :
    (QueryIntentNode.parse_intent reply s).intent_ambiguous = s.intent_ambiguous := by
  unfold QueryIntentNode.parse_intent
  dsimp only
  split <;> rfl

/-- The column-search node never touches the ambiguity mapping. -/
theorem search_amb (reply : DeepState → String) (cm ccm : List Int → String)
    (s : DeepState) :
    (TableSearchNode.search reply cm ccm s).intent_ambiguous = s.intent_ambiguous := by
  unfold TableSearchNode.search
  dsimp only
  split
  · rfl
  · split
    · split <;> rfl
    · rfl

/-- The SQL-generation node never touches the ambiguity mapping. -/
theorem code_sql_amb (res : String) (s : DeepState) :
    (SqlCoderNode.code_sql res s).intent_ambiguous = s.intent_ambiguous := by
  unfold SqlCoderNode.code_sql
  dsimp only
  split
  · rfl
  · split <;> rfl

/-- The repair node never touches the ambiguity mapping. -/
theorem fix_sql_amb (e : String → Nat → Except String String)
    (f : String → String → Nat → String) (s : DeepState) :
    (SqlFixNode.fix_sql e f s).1.intent_ambiguous = s.intent_ambiguous := by
  unfold SqlFixNode.fix_sql
  dsimp only
  split
  · rfl
  · split
    · split <;> rfl
    · split
      · rfl
      · split
        · rfl
        · split <;> rfl

/-- The narrative-analysis node never touches the ambiguity mapping. -/
theorem analyze_data_amb (reply : DeepState → String) (s : DeepState) :
    (AnalyzeDataNode.analyze_data reply s).intent_ambiguous = s.intent_ambiguous := by
  unfold AnalyzeDataNode.analyze_data
  split <;> rfl

/-- The clarification node only ever updates or appends entries: every key of
the incoming mapping is still a key of the outgoing mapping. -/
theorem analyze_query_keys_grow (schema : Option (List (String × String)))
    (resF : DeepState → AnalyzeRes) (vals : List String) (s s' : DeepState)
    (h : QueryAnalyzeNode.analyze_query schema resF vals s = .ok s') :
    ∀ k, k ∈ ambKeys s.intent_ambiguous → k ∈ ambKeys s'.intent_ambiguous := by
  intro k hk
  unfold QueryAnalyzeNode.analyze_query at h
  cases schema with
  | none =>
    cases h
    exact hk
  | some sch =>
    cases hres : QueryAnalyzeNode.resolveLoop (get_user_question s) vals s.intent_ambiguous with
    | error q =>
      rw [hres] at h
      cases h
    | ok amb =>
      rw [hres] at h
      dsimp only at h
      have hmem : k ∈ ambKeys amb :=
        resolveLoop_mem_keys (get_user_question s) vals s.intent_ambiguous amb k hk hres
      split at h <;>
        (cases h; exact mem_ambKeys_ambAddNew amb _ k hmem)

/-- C5: on resume, the clarification stage itself assigns the supplied value
to the next unresolved entry — the `(k+1)`-th suspension raises the `(k+1)`-th
unresolved topic and the `(k+1)`-th supplied value lands on it in place;
resolving keeps the entry (the key set of the mapping is unchanged by
resolution), and no stage of the graph ever deletes an entry. -/
theorem c5_resume_resolves_in_place :
    (∀ qs vs amb, vs.length < qs.length →
      QueryAnalyzeNode.resolveLoop qs vs amb = .error (qs.getD vs.length "")) ∧
    (∀ qs vs amb amb', qs.Nodup → (∀ x ∈ qs, x ∈ ambKeys amb) →
      QueryAnalyzeNode.resolveLoop qs vs amb = .ok amb' →
      ambKeys amb' = ambKeys amb ∧
      ∀ i, i < qs.length →
        assocLookup amb' (qs.getD i "") = some (some (vs.getD i ""))) ∧
    (∀ reply s, (QueryIntentNode.parse_intent reply s).intent_ambiguous =
      s.intent_ambiguous) ∧
    (∀ reply cm ccm s, (TableSearchNode.search reply cm ccm s).intent_ambiguous =
      s.intent_ambiguous) ∧
    (∀ res s, (SqlCoderNode.code_sql res s).intent_ambiguous = s.intent_ambiguous) ∧
    (∀ e f s, (SqlFixNode.fix_sql e f s).1.intent_ambiguous = s.intent_ambiguous) ∧
    (∀ reply s, (AnalyzeDataNode.analyze_data reply s).intent_ambiguous =
      s.intent_ambiguous) ∧
    (∀ schema resF vals s s',
      QueryAnalyzeNode.analyze_query schema resF vals s = .ok s' →
      ∀ k, k ∈ ambKeys s.intent_ambiguous → k ∈ ambKeys s'.intent_ambiguous) := by
  refine ⟨resolveLoop_error_of_lt, ?_, parse_intent_amb, search_amb, code_sql_amb,
    fix_sql_amb, analyze_data_amb, analyze_query_keys_grow⟩
  intro qs vs amb amb' hnd hsub h
  exact ⟨resolveLoop_keys qs vs amb amb' hsub h,
    resolveLoop_lookup qs vs amb amb' hnd h⟩

/-- Witness for C5 at two unresolved entries and two resume values: the
session suspends at `"指标"` first, and after both resumes the entries are
still present, in place, holding the supplied values. -/
theorem c5_resume_resolves_in_place_witness :
    QueryAnalyzeNode.resolveLoop ["指标", "时间范围"] [] [("指标", none), ("时间范围", none)] =
      .error "指标" ∧
    ambKeys [("指标", some "销售额"), ("时间范围", none)] =
      ambKeys [("指标", none), ("时间范围", none)] ∧
    assocLookup [("指标", some "销售额"), ("时间范围", some "上月")] "指标" =
      some (some "销售额") := by
  have h := c5_resume_resolves_in_place
  have h1 := h.1 ["指标", "时间范围"] [] [("指标", none), ("时间范围", none)] (by decide)
  have h2 := h.2.1 ["指标", "时间范围"] ["销售额", "上月"]
    [("指标", none), ("时间范围", none)]
    [("指标", some "销售额"), ("时间范围", some "上月")]
    (by decide) (by decide) (by rfl)
  refine ⟨h1, by decide, ?_⟩
  have := h2.2 0 (by decide)
  simpa using this
